import Mathlib

/-!
Verification of the gaussrace ground-plane / vehicle-kinematics core.

The definitions below are a shallow embedding, over exact real arithmetic,
of the Rust sources `src/ground_plane.rs` and `src/car.rs` together with the
`glam`/`bevy` math primitives they call (`Vec3`, `Quat`, `Transform` local
axes).  Machine `f32` arithmetic is modelled by `ℝ`; where the Rust code
would produce `NaN` (normalizing a zero vector) the real-arithmetic model
produces the zero vector — in both models the result is not a unit vector,
which is what the degeneracy theorems below are about.
-/

namespace GaussRace

noncomputable section

/-- Embedding of `glam::Vec3` with real components. -/
@[ext]
structure V3 where
  x : ℝ
  y : ℝ
  z : ℝ

namespace V3

def add (a b : V3) : V3 := ⟨a.x + b.x, a.y + b.y, a.z + b.z⟩

def sub (a b : V3) : V3 := ⟨a.x - b.x, a.y - b.y, a.z - b.z⟩

def neg (a : V3) : V3 := ⟨-a.x, -a.y, -a.z⟩

/-- Scalar multiplication, `Vec3 * f32` in glam. -/
def smul (a : V3) (s : ℝ) : V3 := ⟨a.x * s, a.y * s, a.z * s⟩

def dot (a b : V3) : ℝ := a.x * b.x + a.y * b.y + a.z * b.z

def cross (a b : V3) : V3 :=
  ⟨a.y * b.z - a.z * b.y, a.z * b.x - a.x * b.z, a.x * b.y - a.y * b.x⟩

/-- `Vec3::length`: `sqrt(self.dot(self))`. -/
def length (a : V3) : ℝ := Real.sqrt (a.dot a)

/-- `Vec3::normalize`: `self * self.length().recip()`.  (On the zero vector
the Rust `f32` computation yields NaN components; in this exact model the
reciprocal of `0` is `0` and the result is the zero vector.  Either way the
result is not unit length.) -/
def normalize (a : V3) : V3 := a.smul (1 / a.length)

def zero : V3 := ⟨0, 0, 0⟩

end V3

instance : Add V3 := ⟨V3.add⟩

instance : Sub V3 := ⟨V3.sub⟩

instance : Neg V3 := ⟨V3.neg⟩

/-- Resource defining the ground plane, from `src/ground_plane.rs`. -/
structure GroundPlane where
  origin : V3
  normal : V3
  up : V3
  is_selected : Bool

namespace GroundPlane

/-- `impl Default for GroundPlane`: horizontal plane through the origin. -/
def defaultPlane : GroundPlane :=
  { origin := V3.zero, normal := ⟨0, 1, 0⟩, up := ⟨0, 1, 0⟩, is_selected := false }

/-- `GroundPlane::from_three_points` (src/ground_plane.rs lines 46-60):
normalizes the cross product of the two edge vectors with no degeneracy
check, flips the normal if its `y` component is negative, and returns a
selected plane with `origin = p1` and `up = normal`. -/
def from_three_points (p1 p2 p3 : V3) : GroundPlane :=
  let v1 := p2 - p1
  let v2 := p3 - p1
  let normal := (v1.cross v2).normalize
  let normal := if normal.y < 0 then -normal else normal
  { origin := p1, normal := normal, up := normal, is_selected := true }

/-- `GroundPlane::project_point` (src/ground_plane.rs lines 62-67). -/
def project_point (gp : GroundPlane) (point : V3) : V3 :=
  let to_point := point - gp.origin
  let distance := to_point.dot gp.normal
  point - gp.normal.smul distance

/-- `GroundPlane::height_at` (src/ground_plane.rs lines 69-73). -/
def height_at (gp : GroundPlane) (point : V3) : ℝ :=
  let to_point := point - gp.origin
  to_point.dot gp.normal

end GroundPlane

/-- Rust `f32::signum` restricted to non-NaN values: `1.0` for positive
values and positive zero, `-1.0` for negative values.  (The model has a
single zero, mapped to `1` like Rust's `+0.0`; every use in the sources
multiplies the sign by a factor that is `0` whenever the argument is `0`,
so the choice at `0` never influences a result.) -/
def rustSignum (x : ℝ) : ℝ := if x < 0 then -1 else 1

/-- Rust `f32::clamp(min, max)`: `if self < min { min } else if self > max
{ max } else { self }`. -/
def rustClamp (x lo hi : ℝ) : ℝ := if x < lo then lo else if x > hi then hi else x

/-- The `Car` component of `src/car.rs` (velocity, steering and the tuning
constants; the world pose lives in a separate `Transform`). -/
structure Car where
  velocity : ℝ
  steering : ℝ
  max_speed : ℝ
  acceleration : ℝ
  brake_power : ℝ
  friction : ℝ
  max_steering : ℝ
  steering_speed : ℝ
  wheelbase : ℝ

/-- `impl Default for Car` (src/car.rs lines 46-60). -/
def Car.defaultCar : Car :=
  { velocity := 0, steering := 0, max_speed := 30, acceleration := 15, brake_power := 25,
    friction := 5, max_steering := 0.6, steering_speed := 3, wheelbase := 2 }

/-- The per-tick key state read by `handle_car_input`: W/Up, S/Down,
A/Left, D/Right. -/
structure CarInput where
  throttle : Bool
  brake : Bool
  left : Bool
  right : Bool

/-- `handle_car_input` (src/car.rs lines 157-217): sequential mutation of
`velocity` and `steering`, modelled by let-chaining in source order —
throttle, brake/reverse, steering (with relaxation toward zero when no
steering key is held), friction when neither throttle nor brake is held,
and the final velocity clamp. -/
def handle_car_input (inp : CarInput) (car : Car) (dt : ℝ) : Car :=
  let v1 := if inp.throttle then car.velocity + car.acceleration * dt else car.velocity
  let v2 := if inp.brake then
      (if v1 > 0 then v1 - car.brake_power * dt else v1 - car.acceleration * 0.5 * dt)
    else v1
  let steering_input : ℝ := if inp.left then 1 else if inp.right then -1 else 0
  let s1 := if steering_input ≠ 0 then
      rustClamp (car.steering + steering_input * car.steering_speed * dt)
        (-car.max_steering) car.max_steering
    else
      let return_speed := car.steering_speed * 2 * dt
      if |car.steering| < return_speed then 0
      else car.steering - rustSignum car.steering * return_speed
  let v3 := if inp.throttle = false ∧ inp.brake = false then
      let friction_decel := car.friction * dt
      if |v2| < friction_decel then 0 else v2 - rustSignum v2 * friction_decel
    else v2
  { car with velocity := rustClamp v3 (-(car.max_speed * 0.3)) car.max_speed, steering := s1 }

/-- The data-model invariant of the spec (§3): speed within
`[-0.3*maxSpeed, maxSpeed]` and steering within `±maxSteeringAngle`. -/
def speedSteerBounds (car : Car) : Prop :=
  -(car.max_speed * 0.3) ≤ car.velocity ∧ car.velocity ≤ car.max_speed ∧
    |car.steering| ≤ car.max_steering

/-- A sequence of input-integration ticks, each with its own key state and
time step. -/
def runTicks (ticks : List (CarInput × ℝ)) (car : Car) : Car :=
  ticks.foldl (fun c p => handle_car_input p.1 c p.2) car

/-- Embedding of `glam::Quat` with real components. -/
@[ext]
structure Quat where
  x : ℝ
  y : ℝ
  z : ℝ
  w : ℝ

namespace Quat

def identity : Quat := ⟨0, 0, 0, 1⟩

/-- Hamilton product, `glam::Quat` multiplication. -/
def mul (a b : Quat) : Quat :=
  ⟨a.w * b.x + a.x * b.w + a.y * b.z - a.z * b.y,
   a.w * b.y - a.x * b.z + a.y * b.w + a.z * b.x,
   a.w * b.z + a.x * b.y - a.y * b.x + a.z * b.w,
   a.w * b.w - a.x * b.x - a.y * b.y - a.z * b.z⟩

def neg (a : Quat) : Quat := ⟨-a.x, -a.y, -a.z, -a.w⟩

def add (a b : Quat) : Quat := ⟨a.x + b.x, a.y + b.y, a.z + b.z, a.w + b.w⟩

def sub (a b : Quat) : Quat := ⟨a.x - b.x, a.y - b.y, a.z - b.z, a.w - b.w⟩

def smul (a : Quat) (s : ℝ) : Quat := ⟨a.x * s, a.y * s, a.z * s, a.w * s⟩

def dot (a b : Quat) : ℝ := a.x * b.x + a.y * b.y + a.z * b.z + a.w * b.w

def length (a : Quat) : ℝ := Real.sqrt (a.dot a)

def normalize (a : Quat) : Quat := a.smul (1 / a.length)

/-- `glam::Quat::mul_vec3`:
`rhs * (w*w - b.dot(b)) + b * (rhs.dot(b) * 2) + b.cross(rhs) * (w * 2)`
where `b` is the vector part. -/
def mulVec3 (q : Quat) (v : V3) : V3 :=
  let w := q.w
  let b : V3 := ⟨q.x, q.y, q.z⟩
  let b2 := b.dot b
  v.smul (w * w - b2) + b.smul (v.dot b * 2) + (b.cross v).smul (w * 2)

/-- `glam::Quat::from_axis_angle` (glam asserts the axis is normalized). -/
def fromAxisAngle (axis : V3) (angle : ℝ) : Quat :=
  let s := Real.sin (angle * 0.5)
  let c := Real.cos (angle * 0.5)
  ⟨axis.x * s, axis.y * s, axis.z * s, c⟩

end Quat

/-- `f32::EPSILON`, i.e. `2⁻²³`, as an exact rational constant. -/
def epsSingle : ℝ := 1 / 8388608

/-- `glam::Vec3::any_orthonormal_vector` (the Pixar orthonormal-basis
construction); reached by `from_rotation_arc` only in its antipodal
branch. -/
def anyOrthonormalVector (v : V3) : V3 :=
  let sign := rustSignum v.z
  let a := -1 / (sign + v.z)
  let b := v.x * v.y * a
  ⟨b, sign + v.y * v.y * a, -v.y⟩

/-- `glam::Quat::from_rotation_arc`: identity within `2·ε` of alignment, a
half-turn about an arbitrary orthonormal axis within `2·ε` of antipodal,
otherwise the normalized quaternion `(from × to, 1 + from·to)`. -/
def fromRotationArc (a b : V3) : Quat :=
  let one_minus_eps := 1 - 2 * epsSingle
  let d := a.dot b
  if one_minus_eps < d then Quat.identity
  else if d < -one_minus_eps then Quat.fromAxisAngle (anyOrthonormalVector a) Real.pi
  else
    let c := a.cross b
    Quat.normalize ⟨c.x, c.y, c.z, 1 + d⟩

/-- `glam::Quat::lerp`: normalized linear interpolation, biased toward the
sign that keeps the quaternion dot product non-negative. -/
def quatLerp (q e : Quat) (s : ℝ) : Quat :=
  let d := q.dot e
  let bias : ℝ := if 0 ≤ d then 1 else -1
  Quat.normalize (q.add (((e.smul bias).sub q).smul s))

/-- `glam::Quat::slerp`: flip the end quaternion if the dot product is
negative; above the dot threshold `1 - ε` fall back to `lerp`, otherwise
use the standard `sin`-weighted spherical interpolation. -/
def quatSlerp (q e : Quat) (s : ℝ) : Quat :=
  let d0 := q.dot e
  let e1 := if d0 < 0 then e.neg else e
  let d := if d0 < 0 then -d0 else d0
  let dot_threshold := 1 - epsSingle
  if dot_threshold < d then quatLerp q e1 s
  else
    let theta := Real.arccos d
    let scale1 := Real.sin (theta * (1 - s))
    let scale2 := Real.sin (theta * s)
    let theta_sin := Real.sin theta
    ((q.smul scale1).add (e1.smul scale2)).smul (1 / theta_sin)

/-- The bevy `Transform` fields used by the sources. -/
@[ext]
structure Transform where
  translation : V3
  rotation : Quat

namespace Transform

/-- bevy `Transform::local_z` (the rotated Z axis, defensively
normalized). -/
def local_z (tf : Transform) : V3 := (tf.rotation.mulVec3 ⟨0, 0, 1⟩).normalize

/-- bevy `Transform::forward() = -local_z()`. -/
def forward (tf : Transform) : V3 := -tf.local_z

/-- bevy `Transform::local_y` (the rotated Y axis, defensively
normalized). -/
def local_y (tf : Transform) : V3 := (tf.rotation.mulVec3 ⟨0, 1, 0⟩).normalize

/-- bevy `Transform::up() = local_y()`. -/
def up (tf : Transform) : V3 := tf.local_y

end Transform

/-- Lines 255-264 of `update_car_physics` in `src/car.rs`: the
orientation-realignment step — when the vehicle's up axis is not already
aligned with the plane normal (dot below `0.999`), pre-multiply the
spherical interpolation, with factor `10·dt`, of the shortest arc taking
the current up axis to the normal. -/
def align_step (gp : GroundPlane) (dt : ℝ) (tf : Transform) : Transform :=
  let target_up := gp.normal
  let current_up := tf.up
  if current_up.dot target_up < 0.999 then
    let align_rotation := fromRotationArc current_up target_up
    let smoothed_rotation := quatSlerp Quat.identity align_rotation (10 * dt)
    { tf with rotation := smoothed_rotation.mul tf.rotation }
  else tf

/-- `update_car_physics` (src/car.rs lines 220-268): early return when
`|velocity| < 0.001`; otherwise sample `forward`, apply the bicycle-model
steering rotation when `|steering| > 0.001`, translate by
`forward * velocity * dt`, re-project onto the ground plane, run the
realignment step, and add the fixed ground offset `0.5` along the
normal. -/
def update_car_physics (car : Car) (gp : GroundPlane) (dt : ℝ) (tf : Transform) : Transform :=
  if |car.velocity| < 0.001 then tf
  else
    let forward := tf.forward
    let tf1 := if 0.001 < |car.steering| then
        let turning_radius := car.wheelbase / Real.tan car.steering
        let angular_velocity := car.velocity / turning_radius
        let rotation := Quat.fromAxisAngle gp.up (angular_velocity * dt)
        { tf with rotation := rotation.mul tf.rotation }
      else tf
    let tf2 := { tf1 with translation := tf1.translation + forward.smul (car.velocity * dt) }
    let tf3 := { tf2 with translation := gp.project_point tf2.translation }
    let tf4 := align_step gp dt tf3
    { tf4 with translation := tf4.translation + gp.normal.smul 0.5 }

/-- Modelled from the spec (§4.3 step 2, as read by claim C6): the same
tick as `update_car_physics` except that the forward axis used for the
translation is derived from the orientation in effect at translation time,
i.e. after the steering rotation has been pre-multiplied. -/
def update_car_physics_forward_after (car : Car) (gp : GroundPlane) (dt : ℝ)
    (tf : Transform) : Transform :=
  if |car.velocity| < 0.001 then tf
  else
    let tf1 := if 0.001 < |car.steering| then
        let turning_radius := car.wheelbase / Real.tan car.steering
        let angular_velocity := car.velocity / turning_radius
        let rotation := Quat.fromAxisAngle gp.up (angular_velocity * dt)
        { tf with rotation := rotation.mul tf.rotation }
      else tf
    let forward := tf1.forward
    let tf2 := { tf1 with translation := tf1.translation + forward.smul (car.velocity * dt) }
    let tf3 := { tf2 with translation := gp.project_point tf2.translation }
    let tf4 := align_step gp dt tf3
    { tf4 with translation := tf4.translation + gp.normal.smul 0.5 }

/-- The pick session (`PlaneSelectionState` in src/ground_plane.rs). -/
structure PlaneSelectionState where
  points : List V3
  active : Bool

/-- One invocation's worth of input to `handle_plane_selection`: whether
`P` or `R` was just pressed and, when the left mouse button was just
pressed with a cursor position available, the world-space ray
(origin, direction) supplied by the external ray-casting collaborator. -/
structure PickInput where
  p_pressed : Bool
  r_pressed : Bool
  click : Option (V3 × V3)

/-- The state `handle_plane_selection` reads and writes: the shared ground
plane resource, the pick session, and the number of live marker
entities. -/
structure PickWorld where
  ground_plane : GroundPlane
  state : PlaneSelectionState
  markers : ℕ

/-- `handle_plane_selection` (src/ground_plane.rs lines 88-181), in source
order: the `P` toggle (clearing points and despawning markers only on the
activating toggle), the `R` reset (default plane, cleared points, no
markers), early return when inactive, then click processing — ray/plane
intersection against the current plane, appending the hit point, spawning
a marker, and installing `from_three_points` once three points are
accumulated (without clearing the session's points or markers). -/
def handle_plane_selection (inp : PickInput) (w : PickWorld) : PickWorld :=
  let w := if inp.p_pressed then
      let active := !w.state.active
      if active then
        { w with state := { points := [], active := active }, markers := 0 }
      else
        { w with state := { w.state with active := active } }
    else w
  let w := if inp.r_pressed then
      { w with ground_plane := GroundPlane.defaultPlane,
               state := { w.state with points := [] }, markers := 0 }
    else w
  if w.state.active = false then w
  else
    match inp.click with
    | none => w
    | some (ray_origin, ray_dir) =>
      let plane_normal := w.ground_plane.normal
      let plane_origin := w.ground_plane.origin
      let denom := plane_normal.dot ray_dir
      if 0.0001 < |denom| then
        let t := ((plane_origin - ray_origin).dot plane_normal) / denom
        if 0 < t then
          let hit_point := ray_origin + ray_dir.smul t
          let points := w.state.points ++ [hit_point]
          let w1 := { w with state := { w.state with points := points },
                             markers := w.markers + 1 }
          if 3 ≤ points.length then
            { w1 with
              ground_plane := GroundPlane.from_three_points (points.getD 0 V3.zero)
                (points.getD 1 V3.zero) (points.getD 2 V3.zero),
              state := { w1.state with active := false } }
          else w1
        else w
      else w

/-- The initial world: default plane, empty inactive session, no
markers. -/
def initialPickWorld : PickWorld :=
  { ground_plane := GroundPlane.defaultPlane,
    state := { points := [], active := false }, markers := 0 }

lemma rustClamp_mem (x lo hi : ℝ) (h : lo ≤ hi) :
    lo ≤ rustClamp x lo hi ∧ rustClamp x lo hi ≤ hi := by
  unfold rustClamp
  split_ifs with h1 h2 <;> constructor <;> linarith

lemma handle_car_input_steering (inp : CarInput) (car : Car) (dt : ℝ) :
    (handle_car_input inp car dt).steering
      = if (if inp.left then (1 : ℝ) else if inp.right then -1 else 0) ≠ 0 then
          rustClamp (car.steering
              + (if inp.left then (1 : ℝ) else if inp.right then -1 else 0)
                * car.steering_speed * dt)
            (-car.max_steering) car.max_steering
        else if |car.steering| < car.steering_speed * 2 * dt then 0
        else car.steering - rustSignum car.steering * (car.steering_speed * 2 * dt) :=
  rfl

lemma steer_relax_abs (s rs maxs : ℝ) (hrs : 0 ≤ rs) (hle : rs ≤ |s|) (hmax : |s| ≤ maxs) :
    |s - rustSignum s * rs| ≤ maxs := by
  unfold rustSignum
  split_ifs with hneg
  · rw [abs_of_neg hneg] at hle hmax
    rw [show s - -1 * rs = s + rs by ring, abs_of_nonpos (by linarith)]
    linarith
  · push_neg at hneg
    rw [abs_of_nonneg hneg] at hle hmax
    rw [abs_of_nonneg (by linarith)]
    linarith

lemma handle_car_input_bounds (inp : CarInput) (car : Car) (dt : ℝ)
    (hdt : 0 ≤ dt) (hss : 0 ≤ car.steering_speed) (hb : speedSteerBounds car) :
    speedSteerBounds (handle_car_input inp car dt) := by
  obtain ⟨hlo, hhi, hst⟩ := hb
  have hm : 0 ≤ car.max_speed := by linarith
  have hms : 0 ≤ car.max_steering := le_trans (abs_nonneg _) hst
  obtain ⟨X, hX⟩ : ∃ X, (handle_car_input inp car dt).velocity
      = rustClamp X (-(car.max_speed * 0.3)) car.max_speed := ⟨_, rfl⟩
  have hcl := rustClamp_mem X (-(car.max_speed * 0.3)) car.max_speed (by linarith)
  refine ⟨?_, ?_, ?_⟩
  · show -(car.max_speed * 0.3) ≤ (handle_car_input inp car dt).velocity
    rw [hX]; exact hcl.1
  · show (handle_car_input inp car dt).velocity ≤ car.max_speed
    rw [hX]; exact hcl.2
  · show |(handle_car_input inp car dt).steering| ≤ car.max_steering
    rw [handle_car_input_steering]
    set si : ℝ := if inp.left then (1 : ℝ) else if inp.right then -1 else 0 with hsi
    split_ifs with h1 h2
    · have := rustClamp_mem (car.steering + si * car.steering_speed * dt)
        (-car.max_steering) car.max_steering (by linarith)
      exact abs_le.mpr ⟨this.1, this.2⟩
    · simpa using hms
    · exact steer_relax_abs car.steering _ car.max_steering
        (by positivity) (not_lt.mp h2) hst

lemma handle_car_input_speed_const (inp : CarInput) (car : Car) (dt : ℝ) :
    (handle_car_input inp car dt).steering_speed = car.steering_speed := rfl

lemma runTicks_bounds (ticks : List (CarInput × ℝ)) (hdt : ∀ p ∈ ticks, 0 ≤ p.2)
    (car : Car) (hss : 0 ≤ car.steering_speed) (hb : speedSteerBounds car) :
    speedSteerBounds (runTicks ticks car) := by
  induction ticks generalizing car with
  | nil => exact hb
  | cons p ps ih =>
    have h1 := handle_car_input_bounds p.1 car p.2 (hdt p (List.mem_cons_self p ps)) hss hb
    exact ih (fun q hq => hdt q (List.mem_cons_of_mem _ hq)) _
      (by rw [handle_car_input_speed_const]; exact hss) h1

/-- C3: one input-integration tick (any key combination, any `dt ≥ 0`)
preserves the speed bound `[-0.3·maxSpeed, maxSpeed]` and the steering
bound `|steering| ≤ maxSteering` (with the tuning rate non-negative, as in
the defaults); hence the invariant holds after any sequence of ticks
starting from the default car. -/
theorem C3_invariant_preserved :
    (∀ (inp : CarInput) (car : Car) (dt : ℝ), 0 ≤ dt → 0 ≤ car.steering_speed →
        speedSteerBounds car → speedSteerBounds (handle_car_input inp car dt)) ∧
    (∀ ticks : List (CarInput × ℝ), (∀ p ∈ ticks, 0 ≤ p.2) →
        speedSteerBounds (runTicks ticks Car.defaultCar)) :=
  ⟨fun inp car dt hdt hss hb => handle_car_input_bounds inp car dt hdt hss hb,
   fun ticks h => runTicks_bounds ticks h Car.defaultCar
     (by norm_num [Car.defaultCar])
     (by norm_num [speedSteerBounds, Car.defaultCar])⟩

/-- Witness for C3: a throttle-and-steer tick from the default car, and a
two-tick sequence. -/
theorem C3_witness :
    speedSteerBounds (handle_car_input ⟨true, false, false, true⟩ Car.defaultCar 1) ∧
    speedSteerBounds (runTicks
      [(⟨true, false, false, false⟩, 1), (⟨false, true, true, false⟩, 2)] Car.defaultCar) :=
  ⟨C3_invariant_preserved.1 ⟨true, false, false, true⟩ Car.defaultCar 1 (by norm_num)
      (by norm_num [Car.defaultCar]) (by norm_num [speedSteerBounds, Car.defaultCar]),
   C3_invariant_preserved.2 _ (by rintro p hp; fin_cases hp <;> norm_num)⟩

/-- C8: with no steering key held, one tick snaps the steering angle to
exactly `0` when its magnitude is below `steeringRate·2·dt`, and otherwise
moves it toward zero by exactly `steeringRate·2·dt` (the magnitude drops
by exactly that amount). -/
theorem C8_steering_snap (t b : Bool) (car : Car) (dt : ℝ) :
    (|car.steering| < car.steering_speed * 2 * dt →
      (handle_car_input ⟨t, b, false, false⟩ car dt).steering = 0) ∧
    (car.steering_speed * 2 * dt ≤ |car.steering| →
      (handle_car_input ⟨t, b, false, false⟩ car dt).steering
          = car.steering - rustSignum car.steering * (car.steering_speed * 2 * dt) ∧
        |(handle_car_input ⟨t, b, false, false⟩ car dt).steering|
          = |car.steering| - car.steering_speed * 2 * dt) := by
  have hs : (handle_car_input ⟨t, b, false, false⟩ car dt).steering
      = if |car.steering| < car.steering_speed * 2 * dt then 0
        else car.steering - rustSignum car.steering * (car.steering_speed * 2 * dt) := by
    rw [handle_car_input_steering]
    norm_num
  constructor
  · intro h
    rw [hs, if_pos h]
  · intro h
    rw [hs, if_neg (not_lt.mpr h)]
    refine ⟨rfl, ?_⟩
    unfold rustSignum
    split_ifs with hneg
    · rw [abs_of_neg hneg] at h ⊢
      rw [show car.steering - -1 * (car.steering_speed * 2 * dt)
          = car.steering + car.steering_speed * 2 * dt by ring]
      rw [abs_of_nonpos (by nlinarith)]
      ring
    · push_neg at hneg
      rw [abs_of_nonneg hneg] at h ⊢
      rw [one_mul, abs_of_nonneg (by linarith)]

/-- Witness for C8 at steering `0.1`, rate `3`, `dt = 0.1` (snap case) —
stated for both branches of the theorem. -/
theorem C8_witness :
    (|({ Car.defaultCar with steering := 0.1 } : Car).steering|
        < ({ Car.defaultCar with steering := 0.1 } : Car).steering_speed * 2 * 0.1 →
      (handle_car_input ⟨false, false, false, false⟩
        { Car.defaultCar with steering := 0.1 } 0.1).steering = 0) ∧
    (({ Car.defaultCar with steering := 0.1 } : Car).steering_speed * 2 * 0.1
        ≤ |({ Car.defaultCar with steering := 0.1 } : Car).steering| →
      (handle_car_input ⟨false, false, false, false⟩
          { Car.defaultCar with steering := 0.1 } 0.1).steering
          = ({ Car.defaultCar with steering := 0.1 } : Car).steering
            - rustSignum ({ Car.defaultCar with steering := 0.1 } : Car).steering
              * (({ Car.defaultCar with steering := 0.1 } : Car).steering_speed * 2 * 0.1) ∧
        |(handle_car_input ⟨false, false, false, false⟩
            { Car.defaultCar with steering := 0.1 } 0.1).steering|
          = |({ Car.defaultCar with steering := 0.1 } : Car).steering|
            - ({ Car.defaultCar with steering := 0.1 } : Car).steering_speed * 2 * 0.1) :=
  C8_steering_snap false false { Car.defaultCar with steering := 0.1 } 0.1

/-- C10: holding the brake with `0 < speed < brakeDeceleration·dt` drives
the speed negative in a single tick — there is no clamp-to-zero at the
sign crossing — and (as long as the reverse cap is not hit) the new speed
is exactly `speed - brakeDeceleration·dt`. -/
theorem C10_brake_into_reverse (l r : Bool) (car : Car) (dt : ℝ)
    (hv : 0 < car.velocity) (hlt : car.velocity < car.brake_power * dt)
    (hm : 0 < car.max_speed) :
    (handle_car_input ⟨false, true, l, r⟩ car dt).velocity < 0 ∧
    (-(car.max_speed * 0.3) ≤ car.velocity - car.brake_power * dt →
      (handle_car_input ⟨false, true, l, r⟩ car dt).velocity
        = car.velocity - car.brake_power * dt) := by
  have hv2 : (handle_car_input ⟨false, true, l, r⟩ car dt).velocity
      = rustClamp (car.velocity - car.brake_power * dt)
          (-(car.max_speed * 0.3)) car.max_speed := by
    show rustClamp (if (false = false ∧ true = false) then _ else
        if car.velocity > 0 then car.velocity - car.brake_power * dt
        else car.velocity - car.acceleration * 0.5 * dt) _ _ = _
    rw [if_neg (by simp), if_pos hv]
  rw [hv2]
  unfold rustClamp
  constructor
  · split_ifs with h1 h2 <;> linarith
  · intro h
    rw [if_neg (not_lt.mpr h), if_neg (by push_neg; nlinarith)]

/-- Witness for C10: default tuning, speed `0.1`, `dt = 0.1`. -/
theorem C10_witness :
    (handle_car_input ⟨false, true, false, false⟩
        { Car.defaultCar with velocity := 0.1 } 0.1).velocity < 0 ∧
    (-(({ Car.defaultCar with velocity := 0.1 } : Car).max_speed * 0.3)
        ≤ ({ Car.defaultCar with velocity := 0.1 } : Car).velocity
          - ({ Car.defaultCar with velocity := 0.1 } : Car).brake_power * 0.1 →
      (handle_car_input ⟨false, true, false, false⟩
          { Car.defaultCar with velocity := 0.1 } 0.1).velocity
        = ({ Car.defaultCar with velocity := 0.1 } : Car).velocity
          - ({ Car.defaultCar with velocity := 0.1 } : Car).brake_power * 0.1) :=
  C10_brake_into_reverse false false { Car.defaultCar with velocity := 0.1 } 0.1
    (by norm_num) (by norm_num [Car.defaultCar]) (by norm_num [Car.defaultCar])

/-- C9: with `|velocity| < 0.001` the pose-advancement tick returns the
transform unchanged — every remaining step (steering rotation,
translation, plane re-projection, realignment, ground offset) is
skipped. -/
theorem C9_stationary_noop (car : Car) (gp : GroundPlane) (dt : ℝ) (tf : Transform)
    (hv : |car.velocity| < 0.001) :
    update_car_physics car gp dt tf = tf := by
  unfold update_car_physics
  rw [if_pos hv]

/-- Witness for C9: speed forced to `0.0005`, steering `0.5`. -/
theorem C9_witness :
    update_car_physics { Car.defaultCar with velocity := 0.0005, steering := 0.5 }
        GroundPlane.defaultPlane 0.016
        { translation := ⟨1, 2, 3⟩, rotation := Quat.identity }
      = { translation := ⟨1, 2, 3⟩, rotation := Quat.identity } :=
  C9_stationary_noop _ _ _ _ (by norm_num [Car.defaultCar, abs_lt])

lemma project_point_height (gp : GroundPlane) (hn : gp.normal.dot gp.normal = 1) (p : V3) :
    (gp.project_point p - gp.origin).dot gp.normal = 0 := by
  simp only [GroundPlane.project_point, V3.dot, V3.smul, HSub.hSub, Sub.sub, V3.sub]
  simp only [V3.dot] at hn
  linear_combination (-((p.x - gp.origin.x) * gp.normal.x + (p.y - gp.origin.y) * gp.normal.y +
    (p.z - gp.origin.z) * gp.normal.z)) * hn

lemma sub_smul_zero (q : V3) (n : V3) : q - n.smul 0 = q := by
  ext <;> simp [V3.smul, HSub.hSub, Sub.sub, V3.sub]

/-- C2: For every plane whose normal is a unit vector and every point `p`,
`height_at (project_point p) = 0`, and `project_point` is idempotent, over
exact arithmetic. -/
theorem C2_project_height_idempotent (gp : GroundPlane) (hn : gp.normal.dot gp.normal = 1)
    (p : V3) :
    gp.height_at (gp.project_point p) = 0 ∧
    gp.project_point (gp.project_point p) = gp.project_point p := by
  have h := project_point_height gp hn p
  constructor
  · simpa [GroundPlane.height_at] using h
  · show (gp.project_point p) - gp.normal.smul _ = gp.project_point p
    rw [show ((gp.project_point p) - gp.origin).dot gp.normal = 0 from h]
    exact sub_smul_zero _ _

/-- Witness for C2 at the default plane and the point `(1, 2, 3)`. -/
theorem C2_witness :
    GroundPlane.defaultPlane.height_at
      (GroundPlane.defaultPlane.project_point ⟨1, 2, 3⟩) = 0 ∧
    GroundPlane.defaultPlane.project_point
      (GroundPlane.defaultPlane.project_point ⟨1, 2, 3⟩) =
    GroundPlane.defaultPlane.project_point ⟨1, 2, 3⟩ :=
  C2_project_height_idempotent GroundPlane.defaultPlane
    (by norm_num [GroundPlane.defaultPlane, V3.dot]) ⟨1, 2, 3⟩

lemma V3_add_def (a b : V3) : a + b = ⟨a.x + b.x, a.y + b.y, a.z + b.z⟩ := rfl

lemma V3_sub_def (a b : V3) : a - b = ⟨a.x - b.x, a.y - b.y, a.z - b.z⟩ := rfl

lemma V3_neg_def (a : V3) : -a = ⟨-a.x, -a.y, -a.z⟩ := rfl

lemma V3_dot_self_pos (v : V3) (hv : v ≠ V3.zero) : 0 < v.dot v := by
  rcases v with ⟨a, b, c⟩
  have h : a ≠ 0 ∨ b ≠ 0 ∨ c ≠ 0 := by
    by_contra h
    push_neg at h
    exact hv (by simp [V3.zero, h.1, h.2.1, h.2.2])
  unfold V3.dot
  rcases h with h | h | h <;>
    nlinarith [mul_self_pos.mpr h, mul_self_nonneg a, mul_self_nonneg b, mul_self_nonneg c]

lemma smul_dot_smul (v : V3) (s : ℝ) : (v.smul s).dot (v.smul s) = s ^ 2 * v.dot v := by
  unfold V3.smul V3.dot
  ring

lemma normalize_unit (v : V3) (hv : 0 < v.dot v) : v.normalize.dot v.normalize = 1 := by
  unfold V3.normalize V3.length
  rw [smul_dot_smul, div_pow, one_pow, Real.sq_sqrt (le_of_lt hv)]
  field_simp

lemma neg_dot_neg (v : V3) : (-v).dot (-v) = v.dot v := by
  show (V3.neg v).dot (V3.neg v) = v.dot v
  unfold V3.neg V3.dot
  ring

/-- C7: for three points with a non-zero cross product, `from_three_points`
returns a plane whose normal has non-negative `y`, is unit length, with
`origin = p1`, `up = normal` and the selected flag set, regardless of the
winding of the three points. -/
theorem C7_from_three_points_convention (p1 p2 p3 : V3)
    (hnd : (p2 - p1).cross (p3 - p1) ≠ V3.zero) :
    0 ≤ (GroundPlane.from_three_points p1 p2 p3).normal.y ∧
    (GroundPlane.from_three_points p1 p2 p3).normal.dot
      (GroundPlane.from_three_points p1 p2 p3).normal = 1 ∧
    (GroundPlane.from_three_points p1 p2 p3).origin = p1 ∧
    (GroundPlane.from_three_points p1 p2 p3).up
      = (GroundPlane.from_three_points p1 p2 p3).normal ∧
    (GroundPlane.from_three_points p1 p2 p3).is_selected = true := by
  have hpos := V3_dot_self_pos _ hnd
  have hunit := normalize_unit _ hpos
  rcases lt_or_le ((p2 - p1).cross (p3 - p1)).normalize.y 0 with h | h
  · have hplane : GroundPlane.from_three_points p1 p2 p3
        = { origin := p1, normal := -((p2 - p1).cross (p3 - p1)).normalize,
            up := -((p2 - p1).cross (p3 - p1)).normalize, is_selected := true } := by
      simp only [GroundPlane.from_three_points, if_pos h]
    rw [hplane]
    refine ⟨?_, ?_, rfl, rfl, rfl⟩
    · show 0 ≤ -((p2 - p1).cross (p3 - p1)).normalize.y
      linarith
    · show (-((p2 - p1).cross (p3 - p1)).normalize).dot
        (-((p2 - p1).cross (p3 - p1)).normalize) = 1
      rw [neg_dot_neg]
      exact hunit
  · have hplane : GroundPlane.from_three_points p1 p2 p3
        = { origin := p1, normal := ((p2 - p1).cross (p3 - p1)).normalize,
            up := ((p2 - p1).cross (p3 - p1)).normalize, is_selected := true } := by
      simp only [GroundPlane.from_three_points, if_neg (not_lt.mpr h)]
    rw [hplane]
    exact ⟨h, hunit, rfl, rfl, rfl⟩

/-- Witness for C7 at `(0,0,0)`, `(1,0,0)`, `(0,0,1)` (a winding whose raw
cross product points down, exercising the sign flip). -/
theorem C7_witness :
    0 ≤ (GroundPlane.from_three_points ⟨0, 0, 0⟩ ⟨1, 0, 0⟩ ⟨0, 0, 1⟩).normal.y ∧
    (GroundPlane.from_three_points ⟨0, 0, 0⟩ ⟨1, 0, 0⟩ ⟨0, 0, 1⟩).normal.dot
      (GroundPlane.from_three_points ⟨0, 0, 0⟩ ⟨1, 0, 0⟩ ⟨0, 0, 1⟩).normal = 1 ∧
    (GroundPlane.from_three_points ⟨0, 0, 0⟩ ⟨1, 0, 0⟩ ⟨0, 0, 1⟩).origin = ⟨0, 0, 0⟩ ∧
    (GroundPlane.from_three_points ⟨0, 0, 0⟩ ⟨1, 0, 0⟩ ⟨0, 0, 1⟩).up
      = (GroundPlane.from_three_points ⟨0, 0, 0⟩ ⟨1, 0, 0⟩ ⟨0, 0, 1⟩).normal ∧
    (GroundPlane.from_three_points ⟨0, 0, 0⟩ ⟨1, 0, 0⟩ ⟨0, 0, 1⟩).is_selected = true :=
  C7_from_three_points_convention ⟨0, 0, 0⟩ ⟨1, 0, 0⟩ ⟨0, 0, 1⟩
    (by norm_num [HSub.hSub, Sub.sub, V3.sub, V3.cross, V3.zero, V3.mk.injEq])

/-- C1 (code evaluated at the failing input): the spec (§4.1, §7, §8)
requires a near-zero cross product to be detected before normalizing and
the fit rejected, keeping the previous Plane Model.  The code has no such
check: with two collinear points already picked, a third collinear click
calls `from_three_points`, which normalizes the zero cross product —
NaN components in `f32`, the zero vector in this exact model; in either
arithmetic the result is not a unit normal — and installs that degenerate
plane as the shared Plane Model with `is_selected = true`, losing the
previous (default) plane instead of keeping it. -/
theorem C1_degenerate_fit_installed :
    (handle_plane_selection ⟨false, false, some (⟨2, 1, 0⟩, ⟨0, -1, 0⟩)⟩
      { ground_plane := GroundPlane.defaultPlane,
        state := { points := [⟨0, 0, 0⟩, ⟨1, 0, 0⟩], active := true },
        markers := 2 }).ground_plane.normal = V3.zero ∧
    (handle_plane_selection ⟨false, false, some (⟨2, 1, 0⟩, ⟨0, -1, 0⟩)⟩
      { ground_plane := GroundPlane.defaultPlane,
        state := { points := [⟨0, 0, 0⟩, ⟨1, 0, 0⟩], active := true },
        markers := 2 }).ground_plane.is_selected = true ∧
    (handle_plane_selection ⟨false, false, some (⟨2, 1, 0⟩, ⟨0, -1, 0⟩)⟩
      { ground_plane := GroundPlane.defaultPlane,
        state := { points := [⟨0, 0, 0⟩, ⟨1, 0, 0⟩], active := true },
        markers := 2 }).state.active = false := by
  have hstep : handle_plane_selection ⟨false, false, some (⟨2, 1, 0⟩, ⟨0, -1, 0⟩)⟩
      { ground_plane := GroundPlane.defaultPlane,
        state := { points := [⟨0, 0, 0⟩, ⟨1, 0, 0⟩], active := true },
        markers := 2 }
      = { ground_plane := GroundPlane.from_three_points ⟨0, 0, 0⟩ ⟨1, 0, 0⟩ ⟨2, 0, 0⟩,
          state := { points := [⟨0, 0, 0⟩, ⟨1, 0, 0⟩, ⟨2, 0, 0⟩], active := false },
          markers := 3 } := by
    unfold handle_plane_selection
    norm_num [GroundPlane.defaultPlane, V3.dot, V3.smul, V3.zero, V3_sub_def, V3_add_def,
      V3.mk.injEq, List.getD, abs_neg, abs_one]
  rw [hstep]
  refine ⟨?_, rfl, rfl⟩
  show (GroundPlane.from_three_points ⟨0, 0, 0⟩ ⟨1, 0, 0⟩ ⟨2, 0, 0⟩).normal = V3.zero
  simp only [GroundPlane.from_three_points]
  norm_num [V3_sub_def, V3.cross, V3.normalize, V3.length, V3.dot, V3.smul,
    V3.zero, V3.mk.injEq, Real.sqrt_zero]

/-- C4 counterexample: a full successful pick run — toggle on, then three
accepted clicks hitting `(0,0,0)`, `(1,0,0)`, `(0,0,1)` — ends with the
plane installed (`normal = (0,1,0)`, selected) and the session
deactivated, yet the session still holds its 3 points (and 3 markers):
the claim that a successful 3-point completion leaves the session with
zero points is false at this input. -/
theorem C4_counterexample :
    ((handle_plane_selection ⟨false, false, some (⟨0, 1, 1⟩, ⟨0, -1, 0⟩)⟩
      (handle_plane_selection ⟨false, false, some (⟨1, 1, 0⟩, ⟨0, -1, 0⟩)⟩
        (handle_plane_selection ⟨false, false, some (⟨0, 1, 0⟩, ⟨0, -1, 0⟩)⟩
          (handle_plane_selection ⟨true, false, none⟩ initialPickWorld)))).state.points
        ≠ [] ∧
     (handle_plane_selection ⟨false, false, some (⟨0, 1, 1⟩, ⟨0, -1, 0⟩)⟩
      (handle_plane_selection ⟨false, false, some (⟨1, 1, 0⟩, ⟨0, -1, 0⟩)⟩
        (handle_plane_selection ⟨false, false, some (⟨0, 1, 0⟩, ⟨0, -1, 0⟩)⟩
          (handle_plane_selection ⟨true, false, none⟩ initialPickWorld)))).state.points.length
        = 3 ∧
     (handle_plane_selection ⟨false, false, some (⟨0, 1, 1⟩, ⟨0, -1, 0⟩)⟩
      (handle_plane_selection ⟨false, false, some (⟨1, 1, 0⟩, ⟨0, -1, 0⟩)⟩
        (handle_plane_selection ⟨false, false, some (⟨0, 1, 0⟩, ⟨0, -1, 0⟩)⟩
          (handle_plane_selection ⟨true, false, none⟩ initialPickWorld)))).state.active
        = false ∧
     (handle_plane_selection ⟨false, false, some (⟨0, 1, 1⟩, ⟨0, -1, 0⟩)⟩
      (handle_plane_selection ⟨false, false, some (⟨1, 1, 0⟩, ⟨0, -1, 0⟩)⟩
        (handle_plane_selection ⟨false, false, some (⟨0, 1, 0⟩, ⟨0, -1, 0⟩)⟩
          (handle_plane_selection ⟨true, false, none⟩ initialPickWorld)))).ground_plane
        = { origin := ⟨0, 0, 0⟩, normal := ⟨0, 1, 0⟩, up := ⟨0, 1, 0⟩, is_selected := true } ∧
     (handle_plane_selection ⟨false, false, some (⟨0, 1, 1⟩, ⟨0, -1, 0⟩)⟩
      (handle_plane_selection ⟨false, false, some (⟨1, 1, 0⟩, ⟨0, -1, 0⟩)⟩
        (handle_plane_selection ⟨false, false, some (⟨0, 1, 0⟩, ⟨0, -1, 0⟩)⟩
          (handle_plane_selection ⟨true, false, none⟩ initialPickWorld)))).markers = 3) := by
  have h1 : handle_plane_selection ⟨true, false, none⟩ initialPickWorld
      = { ground_plane := GroundPlane.defaultPlane,
          state := { points := [], active := true }, markers := 0 } := rfl
  have h2 : handle_plane_selection ⟨false, false, some (⟨0, 1, 0⟩, ⟨0, -1, 0⟩)⟩
      { ground_plane := GroundPlane.defaultPlane,
        state := { points := [], active := true }, markers := 0 }
      = { ground_plane := GroundPlane.defaultPlane,
          state := { points := [⟨0, 0, 0⟩], active := true }, markers := 1 } := by
    unfold handle_plane_selection
    norm_num [GroundPlane.defaultPlane, V3.zero, V3.dot, V3.smul, V3_sub_def, V3_add_def,
      V3.mk.injEq, abs_neg, abs_one]
  have h3 : handle_plane_selection ⟨false, false, some (⟨1, 1, 0⟩, ⟨0, -1, 0⟩)⟩
      { ground_plane := GroundPlane.defaultPlane,
        state := { points := [⟨0, 0, 0⟩], active := true }, markers := 1 }
      = { ground_plane := GroundPlane.defaultPlane,
          state := { points := [⟨0, 0, 0⟩, ⟨1, 0, 0⟩], active := true }, markers := 2 } := by
    unfold handle_plane_selection
    norm_num [GroundPlane.defaultPlane, V3.zero, V3.dot, V3.smul, V3_sub_def, V3_add_def,
      V3.mk.injEq, abs_neg, abs_one]
  have h4 : handle_plane_selection ⟨false, false, some (⟨0, 1, 1⟩, ⟨0, -1, 0⟩)⟩
      { ground_plane := GroundPlane.defaultPlane,
        state := { points := [⟨0, 0, 0⟩, ⟨1, 0, 0⟩], active := true }, markers := 2 }
      = { ground_plane :=
            { origin := ⟨0, 0, 0⟩, normal := ⟨0, 1, 0⟩, up := ⟨0, 1, 0⟩, is_selected := true },
          state := { points := [⟨0, 0, 0⟩, ⟨1, 0, 0⟩, ⟨0, 0, 1⟩], active := false },
          markers := 3 } := by
    unfold handle_plane_selection
    norm_num [GroundPlane.defaultPlane, GroundPlane.from_three_points, V3.zero, V3.dot,
      V3.smul, V3.cross, V3.normalize, V3.length, V3_sub_def, V3_add_def, V3_neg_def,
      V3.mk.injEq, List.getD, abs_neg, abs_one, Real.sqrt_one]
  rw [h1, h2, h3, h4]
  refine ⟨by simp, rfl, rfl, rfl, rfl⟩

/-- C4 amended: the pick session's points and markers are cleared on the
*activating* toggle and on reset; toggling selection off retains the
accumulated points (only deactivating the session), and a successful
3-point completion likewise leaves the 3 accumulated points and their
markers in place (they are inert and only cleared at the next activation
or reset). -/
theorem C4_session_clearing :
    (∀ (w : PickWorld) (inp : PickInput), inp.p_pressed = true → inp.r_pressed = false →
      inp.click = none → w.state.active = false →
      (handle_plane_selection inp w).state.points = [] ∧
        (handle_plane_selection inp w).markers = 0) ∧
    (∀ (w : PickWorld) (p : Bool),
      (handle_plane_selection ⟨p, true, none⟩ w).state.points = [] ∧
        (handle_plane_selection ⟨p, true, none⟩ w).markers = 0 ∧
        (handle_plane_selection ⟨p, true, none⟩ w).ground_plane
          = GroundPlane.defaultPlane) ∧
    (∀ (w : PickWorld) (inp : PickInput), inp.p_pressed = true → inp.r_pressed = false →
      inp.click = none → w.state.active = true →
      (handle_plane_selection inp w).state.points = w.state.points ∧
        (handle_plane_selection inp w).state.active = false) ∧
    (∀ (w : PickWorld) (ro rd : V3), w.state.active = true →
      w.state.points.length = 2 →
      0.0001 < |w.ground_plane.normal.dot rd| →
      0 < ((w.ground_plane.origin - ro).dot w.ground_plane.normal)
            / (w.ground_plane.normal.dot rd) →
      (handle_plane_selection ⟨false, false, some (ro, rd)⟩ w).state.points.length = 3 ∧
        (handle_plane_selection ⟨false, false, some (ro, rd)⟩ w).state.active = false ∧
        (handle_plane_selection ⟨false, false, some (ro, rd)⟩ w).markers
          = w.markers + 1) := by
  refine ⟨?_, ?_, ?_, ?_⟩
  · rintro ⟨gp, ⟨pts, act⟩, mk⟩ ⟨p, r, c⟩ hp hr hc hact
    obtain rfl : p = true := hp
    obtain rfl : r = false := hr
    obtain rfl : c = none := hc
    obtain rfl : act = false := hact
    exact ⟨rfl, rfl⟩
  · rintro ⟨gp, ⟨pts, act⟩, mk⟩ p
    cases p <;> cases act <;> exact ⟨rfl, rfl, rfl⟩
  · rintro ⟨gp, ⟨pts, act⟩, mk⟩ ⟨p, r, c⟩ hp hr hc hact
    obtain rfl : p = true := hp
    obtain rfl : r = false := hr
    obtain rfl : c = none := hc
    obtain rfl : act = true := hact
    exact ⟨rfl, rfl⟩
  · rintro ⟨gp, ⟨pts, act⟩, mk⟩ ro rd hact hlen hdenom ht
    obtain rfl : act = true := hact
    have hl : pts.length = 2 := hlen
    have hd : (0.0001 : ℝ) < |gp.normal.dot rd| := hdenom
    have ht' : 0 < ((gp.origin - ro).dot gp.normal) / (gp.normal.dot rd) := ht
    have hw : handle_plane_selection ⟨false, false, some (ro, rd)⟩ ⟨gp, ⟨pts, true⟩, mk⟩
        = if 0.0001 < |gp.normal.dot rd| then
            (if 0 < ((gp.origin - ro).dot gp.normal) / (gp.normal.dot rd) then
              (let hit := ro + rd.smul (((gp.origin - ro).dot gp.normal)
                  / (gp.normal.dot rd))
               let points := pts ++ [hit]
               let w1 : PickWorld := ⟨gp, ⟨points, true⟩, mk + 1⟩
               if 3 ≤ points.length then
                 { w1 with
                   ground_plane := GroundPlane.from_three_points (points.getD 0 V3.zero)
                     (points.getD 1 V3.zero) (points.getD 2 V3.zero),
                   state := { w1.state with active := false } }
               else w1)
            else ⟨gp, ⟨pts, true⟩, mk⟩)
          else ⟨gp, ⟨pts, true⟩, mk⟩ := rfl
    rw [hw, if_pos hd, if_pos ht']
    have hlen3 : (pts ++ [ro + rd.smul (((gp.origin - ro).dot gp.normal)
        / (gp.normal.dot rd))]).length = 3 := by
      simp [List.length_append, hl]
    simp only [hlen3]
    norm_num [hlen3]

/-- Witness for C4's amended theorem: all four parts at concrete
worlds (fresh activation, reset, toggle-off with a stored point, and a
completing third click). -/
theorem C4_witness :
    ((handle_plane_selection ⟨true, false, none⟩ initialPickWorld).state.points = [] ∧
      (handle_plane_selection ⟨true, false, none⟩ initialPickWorld).markers = 0) ∧
    ((handle_plane_selection ⟨false, true, none⟩ initialPickWorld).state.points = [] ∧
      (handle_plane_selection ⟨false, true, none⟩ initialPickWorld).markers = 0 ∧
      (handle_plane_selection ⟨false, true, none⟩ initialPickWorld).ground_plane
        = GroundPlane.defaultPlane) ∧
    ((handle_plane_selection ⟨true, false, none⟩
        { ground_plane := GroundPlane.defaultPlane,
          state := { points := [⟨5, 0, 0⟩], active := true }, markers := 1 }).state.points
        = ({ ground_plane := GroundPlane.defaultPlane,
             state := { points := [⟨5, 0, 0⟩], active := true },
             markers := 1 } : PickWorld).state.points ∧
      (handle_plane_selection ⟨true, false, none⟩
        { ground_plane := GroundPlane.defaultPlane,
          state := { points := [⟨5, 0, 0⟩], active := true }, markers := 1 }).state.active
        = false) ∧
    ((handle_plane_selection ⟨false, false, some (⟨0, 1, 1⟩, ⟨0, -1, 0⟩)⟩
        { ground_plane := GroundPlane.defaultPlane,
          state := { points := [⟨0, 0, 0⟩, ⟨1, 0, 0⟩], active := true },
          markers := 2 }).state.points.length = 3 ∧
      (handle_plane_selection ⟨false, false, some (⟨0, 1, 1⟩, ⟨0, -1, 0⟩)⟩
        { ground_plane := GroundPlane.defaultPlane,
          state := { points := [⟨0, 0, 0⟩, ⟨1, 0, 0⟩], active := true },
          markers := 2 }).state.active = false ∧
      (handle_plane_selection ⟨false, false, some (⟨0, 1, 1⟩, ⟨0, -1, 0⟩)⟩
        { ground_plane := GroundPlane.defaultPlane,
          state := { points := [⟨0, 0, 0⟩, ⟨1, 0, 0⟩], active := true },
          markers := 2 }).markers
        = ({ ground_plane := GroundPlane.defaultPlane,
             state := { points := [⟨0, 0, 0⟩, ⟨1, 0, 0⟩], active := true },
             markers := 2 } : PickWorld).markers + 1) :=
  ⟨C4_session_clearing.1 initialPickWorld ⟨true, false, none⟩ rfl rfl rfl rfl,
   C4_session_clearing.2.1 initialPickWorld false,
   C4_session_clearing.2.2.1 _ ⟨true, false, none⟩ rfl rfl rfl rfl,
   C4_session_clearing.2.2.2 _ ⟨0, 1, 1⟩ ⟨0, -1, 0⟩ rfl rfl
     (by norm_num [GroundPlane.defaultPlane, V3.zero, V3.dot, abs_neg, abs_one])
     (by norm_num [GroundPlane.defaultPlane, V3.zero, V3.dot, V3_sub_def])⟩

lemma align_step_translation (gp : GroundPlane) (dt : ℝ) (tf : Transform) :
    (align_step gp dt tf).translation = tf.translation := by
  simp only [align_step]
  split_ifs <;> rfl

/-- C6 amended: in a moving, steering tick the rotation about the plane's
up axis is indeed pre-multiplied onto the orientation first, but the
translation is along the forward axis sampled from the orientation at the
start of the tick — before the steering rotation — not from the rotated
orientation. -/
theorem C6_rotation_then_translation (car : Car) (gp : GroundPlane) (dt : ℝ)
    (tf : Transform) (hv : ¬ |car.velocity| < 0.001) (hs : 0.001 < |car.steering|) :
    update_car_physics car gp dt tf
      = { translation := gp.project_point (tf.translation
            + tf.forward.smul (car.velocity * dt)) + gp.normal.smul 0.5,
          rotation := (align_step gp dt
            { translation := gp.project_point (tf.translation
                + tf.forward.smul (car.velocity * dt)),
              rotation := (Quat.fromAxisAngle gp.up
                ((car.velocity / (car.wheelbase / Real.tan car.steering)) * dt)).mul
                tf.rotation }).rotation } := by
  unfold update_car_physics
  rw [if_neg hv, if_pos hs]
  refine Transform.ext ?_ ?_
  · simp only [align_step_translation]
  · rfl

lemma forward_of_identity :
    (({ translation := ⟨0, 0, 0⟩, rotation := Quat.identity } : Transform)).forward
      = (⟨0, 0, -1⟩ : V3) := by
  unfold Transform.forward Transform.local_z
  norm_num [Quat.mulVec3, Quat.identity, V3.dot, V3.cross, V3.smul, V3.normalize, V3.length,
    V3_add_def, V3_neg_def, V3.mk.injEq, Real.sqrt_one]

lemma fromAxisAngle_y_half_turn :
    Quat.fromAxisAngle ⟨0, 1, 0⟩ (2 / (2 / Real.tan (Real.pi / 4)) * Real.pi)
      = ⟨0, 1, 0, 0⟩ := by
  simp only [Quat.fromAxisAngle]
  rw [show 2 / (2 / Real.tan (Real.pi / 4)) * Real.pi * 0.5 = Real.pi / 2 by
    rw [Real.tan_pi_div_four]; ring]
  norm_num [Real.sin_pi_div_two, Real.cos_pi_div_two, Quat.mk.injEq]

lemma forward_of_half_turn :
    (({ translation := ⟨0, 0, 0⟩, rotation := (⟨0, 1, 0, 0⟩ : Quat).mul Quat.identity }
      : Transform)).forward = (⟨0, 0, 1⟩ : V3) := by
  unfold Transform.forward Transform.local_z
  norm_num [Quat.mul, Quat.mulVec3, Quat.identity, V3.dot, V3.cross, V3.smul, V3.normalize,
    V3.length, V3_add_def, V3_neg_def, V3.mk.injEq, Real.sqrt_one]

/-- C6 counterexample: a moving, steering tick (speed 2, steering `π/4`,
`dt = π`, so the steering rotation is a half turn about the plane's up
axis) where the tick as implemented and the spec-order variant (forward
axis sampled after the rotation) produce different positions:
`(0, 1/2, -2π)` versus `(0, 1/2, 2π)`.  The translation therefore does not
use the orientation in effect at translation time; both guards of the
claim hold at this input. -/
theorem C6_counterexample :
    (¬ |({ velocity := 2, steering := Real.pi / 4, max_speed := 30, acceleration := 15, brake_power := 25, friction := 5, max_steering := 0.6, steering_speed := 3, wheelbase := 2 } : Car).velocity| < 0.001) ∧
    (0.001 < |({ velocity := 2, steering := Real.pi / 4, max_speed := 30, acceleration := 15, brake_power := 25, friction := 5, max_steering := 0.6, steering_speed := 3, wheelbase := 2 } : Car).steering|) ∧
    update_car_physics { velocity := 2, steering := Real.pi / 4, max_speed := 30, acceleration := 15, brake_power := 25, friction := 5, max_steering := 0.6, steering_speed := 3, wheelbase := 2 }
        GroundPlane.defaultPlane Real.pi
        { translation := ⟨0, 0, 0⟩, rotation := Quat.identity }
      ≠ update_car_physics_forward_after { velocity := 2, steering := Real.pi / 4, max_speed := 30, acceleration := 15, brake_power := 25, friction := 5, max_steering := 0.6, steering_speed := 3, wheelbase := 2 }
        GroundPlane.defaultPlane Real.pi
        { translation := ⟨0, 0, 0⟩, rotation := Quat.identity } := by
  have hv' : ¬ |({ velocity := 2, steering := Real.pi / 4, max_speed := 30, acceleration := 15, brake_power := 25, friction := 5, max_steering := 0.6, steering_speed := 3, wheelbase := 2 } : Car).velocity| < 0.001 := by
    rw [show ({ velocity := 2, steering := Real.pi / 4, max_speed := 30, acceleration := 15, brake_power := 25, friction := 5, max_steering := 0.6, steering_speed := 3, wheelbase := 2 } : Car).velocity = 2 from rfl]
    rw [abs_of_pos (by norm_num : (0 : ℝ) < 2)]
    norm_num
  have hs' : (0.001 : ℝ) < |({ velocity := 2, steering := Real.pi / 4, max_speed := 30, acceleration := 15, brake_power := 25, friction := 5, max_steering := 0.6, steering_speed := 3, wheelbase := 2 } : Car).steering| := by
    rw [show ({ velocity := 2, steering := Real.pi / 4, max_speed := 30, acceleration := 15, brake_power := 25, friction := 5, max_steering := 0.6, steering_speed := 3, wheelbase := 2 } : Car).steering = Real.pi / 4 from rfl]
    rw [abs_of_pos (by positivity)]
    nlinarith [Real.pi_gt_three]
  refine ⟨hv', hs', ?_⟩
  have hcode : update_car_physics { velocity := 2, steering := Real.pi / 4, max_speed := 30, acceleration := 15, brake_power := 25, friction := 5, max_steering := 0.6, steering_speed := 3, wheelbase := 2 }
      GroundPlane.defaultPlane Real.pi
      { translation := ⟨0, 0, 0⟩, rotation := Quat.identity }
      = { translation := ⟨0, 1 / 2, -(2 * Real.pi)⟩, rotation := ⟨0, 1, 0, 0⟩ } := by
    unfold update_car_physics
    rw [if_neg hv', if_pos hs']
    simp only [GroundPlane.defaultPlane]
    rw [forward_of_identity, fromAxisAngle_y_half_turn]
    norm_num [Quat.mul, Quat.identity, Quat.mulVec3, Transform.up, Transform.local_y,
      V3.normalize, V3.length, V3.dot, V3.cross, V3.smul, V3_add_def, V3_neg_def, V3_sub_def,
      GroundPlane.project_point, align_step, V3.zero, Real.sqrt_one, V3.mk.injEq,
      Quat.mk.injEq, Transform.mk.injEq]
  have hspec : update_car_physics_forward_after { velocity := 2, steering := Real.pi / 4, max_speed := 30, acceleration := 15, brake_power := 25, friction := 5, max_steering := 0.6, steering_speed := 3, wheelbase := 2 }
      GroundPlane.defaultPlane Real.pi
      { translation := ⟨0, 0, 0⟩, rotation := Quat.identity }
      = { translation := ⟨0, 1 / 2, 2 * Real.pi⟩, rotation := ⟨0, 1, 0, 0⟩ } := by
    unfold update_car_physics_forward_after
    rw [if_neg hv', if_pos hs']
    simp only [GroundPlane.defaultPlane]
    rw [fromAxisAngle_y_half_turn, forward_of_half_turn]
    norm_num [Quat.mul, Quat.identity, Quat.mulVec3, Transform.up, Transform.local_y,
      V3.normalize, V3.length, V3.dot, V3.cross, V3.smul, V3_add_def, V3_neg_def, V3_sub_def,
      GroundPlane.project_point, align_step, V3.zero, Real.sqrt_one, V3.mk.injEq,
      Quat.mk.injEq, Transform.mk.injEq]
  rw [hcode, hspec]
  intro h
  have hz := congrArg (fun t : Transform => t.translation.z) h
  simp only at hz
  nlinarith [Real.pi_pos]

/-- Witness for C6's amended theorem at speed `2`, steering `0.3`,
`dt = 1` on the default plane. -/
theorem C6_witness :
    update_car_physics { velocity := 2, steering := 0.3, max_speed := 30, acceleration := 15, brake_power := 25, friction := 5, max_steering := 0.6, steering_speed := 3, wheelbase := 2 }
        GroundPlane.defaultPlane 1
        { translation := ⟨0, 0, 0⟩, rotation := Quat.identity }
      = { translation := GroundPlane.defaultPlane.project_point
            ((({ translation := ⟨0, 0, 0⟩, rotation := Quat.identity } : Transform)).translation
              + (({ translation := ⟨0, 0, 0⟩, rotation := Quat.identity } : Transform)).forward.smul
                (({ velocity := 2, steering := 0.3, max_speed := 30, acceleration := 15, brake_power := 25, friction := 5, max_steering := 0.6, steering_speed := 3, wheelbase := 2 } : Car).velocity * 1))
            + GroundPlane.defaultPlane.normal.smul 0.5,
          rotation := (align_step GroundPlane.defaultPlane 1
            { translation := GroundPlane.defaultPlane.project_point
                ((({ translation := ⟨0, 0, 0⟩, rotation := Quat.identity } : Transform)).translation
                  + (({ translation := ⟨0, 0, 0⟩, rotation := Quat.identity } : Transform)).forward.smul
                    (({ velocity := 2, steering := 0.3, max_speed := 30, acceleration := 15, brake_power := 25, friction := 5, max_steering := 0.6, steering_speed := 3, wheelbase := 2 } : Car).velocity * 1)),
              rotation := (Quat.fromAxisAngle GroundPlane.defaultPlane.up
                ((({ velocity := 2, steering := 0.3, max_speed := 30, acceleration := 15, brake_power := 25, friction := 5, max_steering := 0.6, steering_speed := 3, wheelbase := 2 } : Car).velocity
                    / (({ velocity := 2, steering := 0.3, max_speed := 30, acceleration := 15, brake_power := 25, friction := 5, max_steering := 0.6, steering_speed := 3, wheelbase := 2 } : Car).wheelbase
                      / Real.tan ({ velocity := 2, steering := 0.3, max_speed := 30, acceleration := 15, brake_power := 25, friction := 5, max_steering := 0.6, steering_speed := 3, wheelbase := 2 } : Car).steering)) * 1)).mul
                (({ translation := ⟨0, 0, 0⟩, rotation := Quat.identity } : Transform)).rotation }).rotation } :=
  C6_rotation_then_translation _ GroundPlane.defaultPlane 1 _
    (by rw [show ({ velocity := 2, steering := 0.3, max_speed := 30, acceleration := 15, brake_power := 25, friction := 5, max_steering := 0.6, steering_speed := 3, wheelbase := 2 } : Car).velocity = 2 from rfl,
          abs_of_pos (by norm_num : (0 : ℝ) < 2)]
        norm_num)
    (by rw [show ({ velocity := 2, steering := 0.3, max_speed := 30, acceleration := 15, brake_power := 25, friction := 5, max_steering := 0.6, steering_speed := 3, wheelbase := 2 } : Car).steering = 0.3 from rfl,
          abs_of_pos (by norm_num : (0 : ℝ) < 0.3)]
        norm_num)

lemma quat_mulVec3_mul (p q : Quat) (v : V3) :
    (p.mul q).mulVec3 v = p.mulVec3 (q.mulVec3 v) := by
  refine V3.ext ?_ ?_ ?_ <;>
    · simp only [Quat.mul, Quat.mulVec3, V3.dot, V3.cross, V3.smul, V3_add_def]
      ring

lemma quat_mulVec3_norm (q : Quat) (v : V3) :
    (q.mulVec3 v).dot (q.mulVec3 v) = (q.dot q) ^ 2 * (v.dot v) := by
  simp only [Quat.mulVec3, Quat.dot, V3.dot, V3.cross, V3.smul, V3_add_def]
  ring

lemma cross_lagrange (a b : V3) :
    (a.cross b).dot (a.cross b) = a.dot a * b.dot b - (a.dot b) ^ 2 := by
  simp only [V3.cross, V3.dot]
  ring

lemma normalize_of_unit (v : V3) (hv : v.dot v = 1) : v.normalize = v := by
  unfold V3.normalize V3.length
  rw [hv, Real.sqrt_one]
  refine V3.ext ?_ ?_ ?_ <;> simp [V3.smul]

lemma mulVec3_cross_shape (u n : V3) (k w : ℝ) :
    ((⟨(u.cross n).x * k, (u.cross n).y * k, (u.cross n).z * k, w⟩ : Quat).mulVec3 u).dot n
      = (u.dot n) * (w ^ 2 - k ^ 2 * (u.dot u * n.dot n - (u.dot n) ^ 2))
        + 2 * w * k * (u.dot u * n.dot n - (u.dot n) ^ 2) := by
  simp only [Quat.mulVec3, V3.dot, V3.cross, V3.smul, V3_add_def]
  ring

lemma arccos_le_of_le (x y : ℝ) (h : x ≤ y) : Real.arccos y ≤ Real.arccos x := by
  rw [Real.arccos_eq_pi_div_two_sub_arcsin, Real.arccos_eq_pi_div_two_sub_arcsin]
  have := Real.monotone_arcsin h
  linarith

set_option maxHeartbeats 1000000 in
lemma slerp_arc_core (u n : V3) (huu : u.dot u = 1) (hn : n.dot n = 1)
    (hc1 : u.dot n < 0.999) (hc2 : -(1 - 2 * epsSingle) < u.dot n)
    (t : ℝ) (ht0 : 0 < t) (ht2 : t ≤ 2) :
    u.dot n ≤ ((quatSlerp Quat.identity (fromRotationArc u n) t).mulVec3 u).dot n ∧
    (quatSlerp Quat.identity (fromRotationArc u n) t).dot
      (quatSlerp Quat.identity (fromRotationArc u n) t) = 1 := by
  set c : ℝ := u.dot n with hc_def
  have hcl : -1 < c := by
    have h0 : (0 : ℝ) < 2 * epsSingle := by norm_num [epsSingle]
    linarith
  have hcu : c < 1 := lt_trans hc1 (by norm_num)
  have h2c : (0 : ℝ) < 2 + 2 * c := by linarith
  set s : ℝ := Real.sqrt (2 + 2 * c) with hs_def
  have hs0 : 0 < s := Real.sqrt_pos.mpr h2c
  have hs2 : s ^ 2 = 2 + 2 * c := Real.sq_sqrt h2c.le
  set d : ℝ := (1 + c) / s with hd_def
  have hd0 : 0 ≤ d := div_nonneg (by linarith) hs0.le
  have hd2 : d ^ 2 = (1 + c) / 2 := by
    rw [hd_def, div_pow, hs2]
    rw [div_eq_div_iff (by linarith) (by norm_num)]
    ring
  have hd1 : d < 1 := by nlinarith
  have hds : d * s = 1 + c := by
    rw [hd_def]
    field_simp
  have hsd : s = 2 * d := by
    have h1 : s * s = s * (2 * d) := by
      rw [show s * (2 * d) = 2 * (d * s) by ring, hds]
      linear_combination hs2
    exact mul_left_cancel₀ hs0.ne' h1
  set θ : ℝ := Real.arccos d with hθ_def
  have hcosθ : Real.cos θ = d := Real.cos_arccos (by linarith) hd1.le
  have hθpos : 0 < θ := Real.arccos_pos.mpr hd1
  have hθhalf : θ ≤ Real.pi / 2 := Real.arccos_le_pi_div_two.mpr hd0
  have hsinθ : 0 < Real.sin θ :=
    Real.sin_pos_of_pos_of_lt_pi hθpos (by nlinarith [Real.pi_pos])
  have hsin2 : Real.sin θ ^ 2 = 1 - d ^ 2 := by
    have h := Real.sin_sq_add_cos_sq θ
    rw [hcosθ] at h
    linarith
  set m : ℝ := s * Real.sin θ with hm_def
  have hm0 : 0 < m := mul_pos hs0 hsinθ
  have hm2 : m ^ 2 = 1 - c ^ 2 := by
    rw [hm_def, mul_pow, hs2, hsin2, hd2]
    ring
  -- the rotation-arc quaternion
  have hq : fromRotationArc u n
      = ⟨(u.cross n).x * (1 / s), (u.cross n).y * (1 / s), (u.cross n).z * (1 / s),
         (1 + c) * (1 / s)⟩ := by
    have h1 : ¬ (1 - 2 * epsSingle < u.dot n) := by
      push_neg
      have : (0.999 : ℝ) ≤ 1 - 2 * epsSingle := by norm_num [epsSingle]
      linarith
    have h2 : ¬ (u.dot n < -(1 - 2 * epsSingle)) := not_lt.mpr hc2.le
    simp only [fromRotationArc]
    rw [if_neg h1, if_neg h2]
    have hdq : (⟨(u.cross n).x, (u.cross n).y, (u.cross n).z, 1 + u.dot n⟩ : Quat).dot
        ⟨(u.cross n).x, (u.cross n).y, (u.cross n).z, 1 + u.dot n⟩ = 2 + 2 * u.dot n := by
      have hl := cross_lagrange u n
      simp only [Quat.dot, V3.cross, V3.dot] at *
      linear_combination (n.x * n.x + n.y * n.y + n.z * n.z) * huu + hn
    unfold Quat.normalize Quat.length
    rw [hdq]
    rfl
  -- the slerp result in closed form
  set k : ℝ := Real.sin (θ * t) / m with hk_def
  have hw0 : (0 : ℝ) ≤ (1 + c) * (1 / s) := mul_nonneg (by linarith) (by positivity)
  have hthr : ¬ (1 - epsSingle < (1 + c) * (1 / s)) := by
    push_neg
    rw [mul_one_div]
    have heps : (1 - epsSingle : ℝ) ^ 2 > 0.9995 := by norm_num [epsSingle]
    have hepsp : (0 : ℝ) < 1 - epsSingle := by norm_num [epsSingle]
    nlinarith [hd2]
  have hr : quatSlerp Quat.identity (fromRotationArc u n) t
      = ⟨(u.cross n).x * k, (u.cross n).y * k, (u.cross n).z * k, Real.cos (θ * t)⟩ := by
    rw [hq]
    have hd0' : Quat.identity.dot
        ⟨(u.cross n).x * (1 / s), (u.cross n).y * (1 / s), (u.cross n).z * (1 / s),
         (1 + c) * (1 / s)⟩ = (1 + c) * (1 / s) := by
      simp [Quat.dot, Quat.identity]
    simp only [quatSlerp, hd0']
    rw [if_neg (not_lt.mpr hw0), if_neg (not_lt.mpr hw0), if_neg hthr]
    have harc : Real.arccos ((1 + c) * (1 / s)) = θ := by
      rw [mul_one_div]
    refine Quat.ext ?_ ?_ ?_ ?_
    all_goals simp only [Quat.identity, Quat.smul, Quat.add, harc]
    · rw [hk_def, hm_def]
      field_simp
    · rw [hk_def, hm_def]
      field_simp
    · rw [hk_def, hm_def]
      field_simp
    · rw [show θ * (1 - t) = θ - θ * t by ring, Real.sin_sub, hcosθ, hd_def]
      field_simp
  -- the dot product after the smoothed rotation
  have hk2 : k ^ 2 * (1 * 1 - c ^ 2) = Real.sin (θ * t) ^ 2 := by
    rw [hk_def, div_pow]
    rw [show (1 * 1 - c ^ 2 : ℝ) = m ^ 2 by rw [hm2]; ring]
    field_simp
  have hk1 : k * (1 * 1 - c ^ 2) = Real.sin (θ * t) * m := by
    rw [hk_def]
    rw [show (1 * 1 - c ^ 2 : ℝ) = m ^ 2 by rw [hm2]; ring]
    field_simp
    ring
  have hdotAfter : ((quatSlerp Quat.identity (fromRotationArc u n) t).mulVec3 u).dot n
      = c * (Real.cos (θ * t) ^ 2 - Real.sin (θ * t) ^ 2)
        + 2 * Real.cos (θ * t) * Real.sin (θ * t) * m := by
    rw [hr, mulVec3_cross_shape, huu, hn, ← hc_def]
    rw [show c * (Real.cos (θ * t) ^ 2 - k ^ 2 * (1 * 1 - c ^ 2))
          + 2 * Real.cos (θ * t) * k * (1 * 1 - c ^ 2)
        = c * Real.cos (θ * t) ^ 2 - c * (k ^ 2 * (1 * 1 - c ^ 2))
          + 2 * Real.cos (θ * t) * (k * (1 * 1 - c ^ 2)) by ring, hk2, hk1]
    ring
  have hrr : (quatSlerp Quat.identity (fromRotationArc u n) t).dot
      (quatSlerp Quat.identity (fromRotationArc u n) t) = 1 := by
    rw [hr]
    have hl := cross_lagrange u n
    rw [huu, hn, ← hc_def] at hl
    simp only [V3.dot] at hl
    simp only [Quat.dot]
    linear_combination k ^ 2 * hl + hk2 + Real.sin_sq_add_cos_sq (θ * t)
  refine ⟨?_, hrr⟩
  rw [hdotAfter]
  -- dotAfter - c = 2 sin(θt) · sin(2θ - θt) ≥ 0
  have hcval : c = 2 * d ^ 2 - 1 := by rw [hd2]; try ring
  have hmval : m = 2 * d * Real.sin θ := by rw [hm_def, hsd]; try ring
  have hkey : c * (Real.cos (θ * t) ^ 2 - Real.sin (θ * t) ^ 2)
        + 2 * Real.cos (θ * t) * Real.sin (θ * t) * m - c
      = 2 * Real.sin (θ * t) * Real.sin (2 * θ - θ * t) := by
    rw [Real.sin_sub, Real.sin_two_mul, Real.cos_two_mul, hcosθ]
    linear_combination (2 * Real.cos (θ * t) * Real.sin (θ * t)) * hmval
      + c * Real.sin_sq_add_cos_sq (θ * t) - (2 * Real.sin (θ * t) ^ 2) * hcval
  have htt : θ * t ≤ θ * 2 := mul_le_mul_of_nonneg_left ht2 hθpos.le
  have htt0 : 0 ≤ θ * t := mul_nonneg hθpos.le ht0.le
  have hsin1 : 0 ≤ Real.sin (θ * t) := by
    apply Real.sin_nonneg_of_nonneg_of_le_pi htt0
    linarith
  have hsin2' : 0 ≤ Real.sin (2 * θ - θ * t) := by
    apply Real.sin_nonneg_of_nonneg_of_le_pi
    · linarith
    · linarith
  linarith [mul_nonneg hsin1 hsin2', hkey]

/-- C5 amended: for `0 < dt ≤ 1/5` (slerp factor `10·dt ≤ 2`), a unit
orientation quaternion and a unit plane normal whose angle to the
vehicle's up axis is in the generic arc regime
(`-(1 - 2ε) < up·normal < 0.999`, excluding the antipodal branch of
`from_rotation_arc`), the realignment step never increases the angle
between the up axis and the plane normal.  (For `dt > 1/5` the step can
overshoot and increase the angle — see the counterexample.) -/
theorem C5_realign_no_overshoot (gp : GroundPlane) (dt : ℝ) (tf : Transform)
    (hrot : tf.rotation.dot tf.rotation = 1)
    (hn : gp.normal.dot gp.normal = 1)
    (hc1 : tf.up.dot gp.normal < 0.999)
    (hc2 : -(1 - 2 * epsSingle) < tf.up.dot gp.normal)
    (hdt1 : 0 < dt) (hdt2 : dt ≤ 1 / 5) :
    Real.arccos ((align_step gp dt tf).up.dot gp.normal)
      ≤ Real.arccos (tf.up.dot gp.normal) := by
  have hY : ((⟨0, 1, 0⟩ : V3)).dot ⟨0, 1, 0⟩ = 1 := by norm_num [V3.dot]
  have huu : (tf.rotation.mulVec3 ⟨0, 1, 0⟩).dot (tf.rotation.mulVec3 ⟨0, 1, 0⟩) = 1 := by
    rw [quat_mulVec3_norm, hrot, hY]
    norm_num
  have hup : tf.up = tf.rotation.mulVec3 ⟨0, 1, 0⟩ := by
    show (tf.rotation.mulVec3 ⟨0, 1, 0⟩).normalize = _
    exact normalize_of_unit _ huu
  rw [hup] at hc1 hc2
  set u : V3 := tf.rotation.mulVec3 ⟨0, 1, 0⟩ with hu_def
  have hcore := slerp_arc_core u gp.normal huu hn hc1 hc2 (10 * dt)
    (by linarith) (by linarith)
  set r : Quat := quatSlerp Quat.identity (fromRotationArc u gp.normal) (10 * dt) with hr_def
  have halign : align_step gp dt tf = { tf with rotation := r.mul tf.rotation } := by
    simp only [align_step]
    rw [hup]
    rw [if_pos hc1]
  have hupafter : (align_step gp dt tf).up = r.mulVec3 u := by
    rw [halign]
    show ((r.mul tf.rotation).mulVec3 ⟨0, 1, 0⟩).normalize = _
    rw [quat_mulVec3_mul, ← hu_def]
    apply normalize_of_unit
    rw [quat_mulVec3_norm, hcore.2, huu]
    norm_num
  rw [hupafter, hup]
  exact arccos_le_of_le _ _ hcore.1

/-- C5 counterexample: with `dt = 0.3` (slerp factor 3) and the up axis at
90° to the plane normal (dot `0 < 0.999`, `dt > 0`), the realignment step
rotates past the target: the angle grows from `π/2` to `π`.  The claim
that the step never overshoots for every `dt > 0` is false at this
input. -/
theorem C5_counterexample :
    (({ translation := ⟨0, 0, 0⟩, rotation := Quat.identity } : Transform)).up.dot
        (({ origin := ⟨0, 0, 0⟩, normal := ⟨1, 0, 0⟩, up := ⟨1, 0, 0⟩, is_selected := true } : GroundPlane)).normal < 0.999 ∧
    (0 : ℝ) < 0.3 ∧
    Real.arccos ((({ translation := ⟨0, 0, 0⟩, rotation := Quat.identity } : Transform)).up.dot
        (({ origin := ⟨0, 0, 0⟩, normal := ⟨1, 0, 0⟩, up := ⟨1, 0, 0⟩, is_selected := true } : GroundPlane)).normal)
      < Real.arccos ((align_step { origin := ⟨0, 0, 0⟩, normal := ⟨1, 0, 0⟩, up := ⟨1, 0, 0⟩, is_selected := true } 0.3
            { translation := ⟨0, 0, 0⟩, rotation := Quat.identity }).up.dot
          (({ origin := ⟨0, 0, 0⟩, normal := ⟨1, 0, 0⟩, up := ⟨1, 0, 0⟩, is_selected := true } : GroundPlane)).normal) := by
  have hspos : 0 < Real.sqrt 2 := Real.sqrt_pos.mpr (by norm_num)
  have hss : Real.sqrt 2 * Real.sqrt 2 = 2 := Real.mul_self_sqrt (by norm_num)
  have h12 : (1 : ℝ) / Real.sqrt 2 = Real.sqrt 2 / 2 := by
    field_simp
  have hupI : (({ translation := ⟨0, 0, 0⟩, rotation := Quat.identity } : Transform)).up
      = (⟨0, 1, 0⟩ : V3) := by
    unfold Transform.up Transform.local_y
    norm_num [Quat.mulVec3, Quat.identity, V3.dot, V3.cross, V3.smul, V3.normalize, V3.length,
      V3_add_def, V3.mk.injEq, Real.sqrt_one]
  have hdotI : (({ translation := ⟨0, 0, 0⟩, rotation := Quat.identity } : Transform)).up.dot
      (({ origin := ⟨0, 0, 0⟩, normal := ⟨1, 0, 0⟩, up := ⟨1, 0, 0⟩, is_selected := true } : GroundPlane)).normal = 0 := by
    rw [hupI]
    norm_num [V3.dot]
  have hq : fromRotationArc ⟨0, 1, 0⟩ ⟨1, 0, 0⟩
      = ⟨0, 0, -(Real.sqrt 2 / 2), Real.sqrt 2 / 2⟩ := by
    simp only [fromRotationArc]
    rw [if_neg (by norm_num [V3.dot, epsSingle]), if_neg (by norm_num [V3.dot, epsSingle])]
    unfold Quat.normalize Quat.length
    norm_num [Quat.dot, Quat.smul, V3.cross, V3.dot, Quat.mk.injEq, h12]
  have hslerp : quatSlerp Quat.identity ⟨0, 0, -(Real.sqrt 2 / 2), Real.sqrt 2 / 2⟩ 3
      = ⟨0, 0, -(Real.sqrt 2 / 2), -(Real.sqrt 2 / 2)⟩ := by
    have hd0 : Quat.identity.dot (⟨0, 0, -(Real.sqrt 2 / 2), Real.sqrt 2 / 2⟩ : Quat)
        = Real.sqrt 2 / 2 := by
      norm_num [Quat.dot, Quat.identity]
    have hnn : ¬ (Real.sqrt 2 / 2 < 0) := not_lt.mpr (by positivity)
    have hth : ¬ (1 - epsSingle < Real.sqrt 2 / 2) := by
      push_neg
      have heps : epsSingle = 1 / 8388608 := rfl
      rw [heps]
      nlinarith [hss, hspos, sq_nonneg (Real.sqrt 2 - 1.5)]
    simp only [quatSlerp, hd0]
    rw [if_neg hnn, if_neg hnn, if_neg hth]
    rw [show Real.arccos (Real.sqrt 2 / 2) = Real.pi / 4 by
      rw [← Real.cos_pi_div_four]
      exact Real.arccos_cos (by positivity) (by linarith [Real.pi_pos])]
    rw [show Real.pi / 4 * (1 - 3) = -(Real.pi / 2) by ring, Real.sin_neg, Real.sin_pi_div_two]
    rw [show Real.pi / 4 * 3 = Real.pi - Real.pi / 4 by ring, Real.sin_pi_sub,
      Real.sin_pi_div_four]
    have hinv : (1 : ℝ) / (Real.sqrt 2 / 2) = Real.sqrt 2 := by
      rw [one_div_div, div_eq_iff hspos.ne']
      exact hss.symm
    rw [hinv]
    refine Quat.ext ?_ ?_ ?_ ?_ <;> simp only [Quat.identity, Quat.smul, Quat.add]
    · ring
    · ring
    · linear_combination (-(Real.sqrt 2) / 4) * hss
    · linear_combination (Real.sqrt 2 / 4) * hss
  have halign : align_step { origin := ⟨0, 0, 0⟩, normal := ⟨1, 0, 0⟩, up := ⟨1, 0, 0⟩, is_selected := true } 0.3
      { translation := ⟨0, 0, 0⟩, rotation := Quat.identity }
      = { translation := ⟨0, 0, 0⟩, rotation := (⟨0, 0, -(Real.sqrt 2 / 2), -(Real.sqrt 2 / 2)⟩ : Quat).mul Quat.identity } := by
    simp only [align_step]
    rw [hupI]
    rw [if_pos (by norm_num [V3.dot])]
    rw [show ((10 : ℝ) * 0.3) = 3 by norm_num]
    rw [hq, hslerp]
  have hmul : ((⟨0, 0, -(Real.sqrt 2 / 2), -(Real.sqrt 2 / 2)⟩ : Quat).mul Quat.identity)
      = ⟨0, 0, -(Real.sqrt 2 / 2), -(Real.sqrt 2 / 2)⟩ := by
    norm_num [Quat.mul, Quat.identity, Quat.mk.injEq]
  have hmv : (⟨0, 0, -(Real.sqrt 2 / 2), -(Real.sqrt 2 / 2)⟩ : Quat).mulVec3 ⟨0, 1, 0⟩
      = (⟨-1, 0, 0⟩ : V3) := by
    refine V3.ext ?_ ?_ ?_ <;> simp only [Quat.mulVec3, V3.dot, V3.cross, V3.smul, V3_add_def]
    · linear_combination (-1 / 2 : ℝ) * hss
    · ring
    · ring
  have hupA : (align_step { origin := ⟨0, 0, 0⟩, normal := ⟨1, 0, 0⟩, up := ⟨1, 0, 0⟩, is_selected := true } 0.3
      { translation := ⟨0, 0, 0⟩, rotation := Quat.identity }).up = (⟨-1, 0, 0⟩ : V3) := by
    rw [halign]
    show ((((⟨0, 0, -(Real.sqrt 2 / 2), -(Real.sqrt 2 / 2)⟩ : Quat).mul Quat.identity)).mulVec3 ⟨0, 1, 0⟩).normalize = (⟨-1, 0, 0⟩ : V3)
    rw [hmul, hmv]
    norm_num [V3.normalize, V3.length, V3.dot, V3.smul, V3.mk.injEq, Real.sqrt_one]
  refine ⟨by rw [hdotI]; norm_num, by norm_num, ?_⟩
  rw [hdotI, hupA]
  rw [show ((⟨-1, 0, 0⟩ : V3)).dot (({ origin := ⟨0, 0, 0⟩, normal := ⟨1, 0, 0⟩, up := ⟨1, 0, 0⟩, is_selected := true } : GroundPlane)).normal = -1 by norm_num [V3.dot]]
  rw [Real.arccos_zero, Real.arccos_neg_one]
  linarith [Real.pi_pos]

/-- Witness for C5's amended theorem at `dt = 0.1` with the up axis at 90°
to the plane normal. -/
theorem C5_witness :
    Real.arccos ((align_step { origin := ⟨0, 0, 0⟩, normal := ⟨1, 0, 0⟩, up := ⟨1, 0, 0⟩, is_selected := true } 0.1
          { translation := ⟨0, 0, 0⟩, rotation := Quat.identity }).up.dot
        (({ origin := ⟨0, 0, 0⟩, normal := ⟨1, 0, 0⟩, up := ⟨1, 0, 0⟩, is_selected := true } : GroundPlane)).normal)
      ≤ Real.arccos ((({ translation := ⟨0, 0, 0⟩, rotation := Quat.identity } : Transform)).up.dot
        (({ origin := ⟨0, 0, 0⟩, normal := ⟨1, 0, 0⟩, up := ⟨1, 0, 0⟩, is_selected := true } : GroundPlane)).normal) :=
  C5_realign_no_overshoot _ 0.1 _
    (by norm_num [Quat.dot, Quat.identity])
    (by norm_num [V3.dot])
    (by unfold Transform.up Transform.local_y
        norm_num [Quat.mulVec3, Quat.identity, V3.dot, V3.cross, V3.smul, V3.normalize,
          V3.length, V3_add_def, V3.mk.injEq, Real.sqrt_one])
    (by unfold Transform.up Transform.local_y
        norm_num [Quat.mulVec3, Quat.identity, V3.dot, V3.cross, V3.smul, V3.normalize,
          V3.length, V3_add_def, V3.mk.injEq, Real.sqrt_one, epsSingle])
    (by norm_num)
    (by norm_num)

end

end GaussRace
